import Mathlib

/-!
Verification development for the contract-analysis core of the
MCP Lawyer repository. The Python services
(`app/services/contract_analysis_service.py`,
`app/services/predictive_analysis_service.py`,
`app/services/ai_processor.py`) are shallowly embedded as executable
Lean definitions; machine floats over the configured weights are
modelled as rationals, Python `int()` truncation of a non-negative
value as `Int.floor`, and the language-model call as an explicit
`Except` parameter.
-/

namespace MCPLawyer

/-- Ordinal risk enumeration, `no_risk < low_risk < medium_risk <
high_risk < critical_risk`, in declaration order of the Python
`RiskLevel` enum. -/
inductive RiskLevel where
  | no_risk
  | low_risk
  | medium_risk
  | high_risk
  | critical_risk
deriving DecidableEq, Repr, Fintype

/-- Modelled from the spec: the pydantic model module
`app/models/contract_analysis_models.py` is absent from the sources,
so the category enumeration is taken from the spec (section 3) and
from the members referenced by the service code: indemnification,
liability, termination, confidentiality, intellectual_property, other.
-/
inductive ClauseCategory where
  | indemnification
  | liability
  | termination
  | confidentiality
  | intellectual_property
  | other
deriving DecidableEq, Repr, Fintype

/-- The string value of each `RiskLevel` member, as in the Python enum. -/
def RiskLevel.value : RiskLevel → String
  | .no_risk => "no_risk"
  | .low_risk => "low_risk"
  | .medium_risk => "medium_risk"
  | .high_risk => "high_risk"
  | .critical_risk => "critical_risk"

/-- The string value of each `ClauseCategory` member. -/
def ClauseCategory.value : ClauseCategory → String
  | .indemnification => "indemnification"
  | .liability => "liability"
  | .termination => "termination"
  | .confidentiality => "confidentiality"
  | .intellectual_property => "intellectual_property"
  | .other => "other"

/-- All risk levels in Python enum declaration order. -/
def allRiskLevels : List RiskLevel :=
  [.no_risk, .low_risk, .medium_risk, .high_risk, .critical_risk]

/-- All clause categories in declaration order. -/
def allCategories : List ClauseCategory :=
  [.indemnification, .liability, .termination, .confidentiality,
   .intellectual_property, .other]

/-- A contract clause as produced by `_extract_clauses`: title, text,
category, risk level, risk explanation, and the optional
`position = (start, end)` record. -/
structure ContractClause where
  title : String
  text : String
  category : ClauseCategory
  risk_level : RiskLevel
  risk_explanation : String
  position : Option (Int × Int)
deriving DecidableEq, Repr

/-- The fields of a `ClauseAnalysis` read by the aggregation and
recommendation code: the owned clause, the optional alternative
wording, and the legal concerns list. -/
structure ClauseAnalysis where
  clause : ContractClause
  alternative_wording : Option String
  legal_concerns : List String
deriving DecidableEq, Repr

/-- The contract summary fields read by `_generate_recommendations`. -/
structure ContractSummary where
  title : String
  contract_type : String
  parties : List String
  key_points : List String
  missing_clauses : List String
deriving DecidableEq, Repr

/-- The `default_risk_settings.risk_weights` map set up in
`ContractAnalysisService.__init__`, with the float weights modelled as
rationals. -/
def defaultRiskWeights : List (ClauseCategory × ℚ) :=
  [(.indemnification, 3/2), (.liability, 3/2), (.termination, 6/5),
   (.confidentiality, 1), (.intellectual_property, 13/10)]

/-- `category_weights.get(clause.category, 1.0)`: the configured weight
of a category, defaulting to 1. -/
def weightOf (weights : List (ClauseCategory × ℚ)) (c : ClauseCategory) : ℚ :=
  match weights with
  | [] => 1
  | (k, w) :: rest => if c = k then w else weightOf rest c

/-- The `risk_counts` dictionary of `_assess_overall_risk`: one rational
bucket per risk level. -/
structure RiskCounts where
  no_risk : ℚ
  low_risk : ℚ
  medium_risk : ℚ
  high_risk : ℚ
  critical_risk : ℚ
deriving DecidableEq, Repr

/-- Read one bucket of a `RiskCounts` record. -/
def RiskCounts.get (rc : RiskCounts) : RiskLevel → ℚ
  | .no_risk => rc.no_risk
  | .low_risk => rc.low_risk
  | .medium_risk => rc.medium_risk
  | .high_risk => rc.high_risk
  | .critical_risk => rc.critical_risk

/-- `risk_counts[level] += w`. -/
def RiskCounts.add (rc : RiskCounts) (l : RiskLevel) (w : ℚ) : RiskCounts :=
  match l with
  | .no_risk => { rc with no_risk := rc.no_risk + w }
  | .low_risk => { rc with low_risk := rc.low_risk + w }
  | .medium_risk => { rc with medium_risk := rc.medium_risk + w }
  | .high_risk => { rc with high_risk := rc.high_risk + w }
  | .critical_risk => { rc with critical_risk := rc.critical_risk + w }

/-- The weighted bucket accumulation loop of `_assess_overall_risk`:
for each clause analysis, add the category weight (default 1.0) to the
bucket of the clause's risk level. -/
def riskCounts (weights : List (ClauseCategory × ℚ))
    (analyses : List ClauseAnalysis) : RiskCounts :=
  analyses.foldl
    (fun rc a => rc.add a.clause.risk_level (weightOf weights a.clause.category))
    ⟨0, 0, 0, 0, 0⟩

/-- `current_score`: the weighted sum of risk-level ordinals, written
out per level as in the source. -/
def currentScore (rc : RiskCounts) : ℚ :=
  rc.no_risk * 0 + rc.low_risk * 1 + rc.medium_risk * 2 +
    rc.high_risk * 3 + rc.critical_risk * 4

/-- `max_possible_score = sum(category_weights.values()) * 4 if
category_weights else len(clause_analyses) * 4`. -/
def maxPossibleScore (weights : List (ClauseCategory × ℚ))
    (analyses : List ClauseAnalysis) : ℚ :=
  if weights ≠ [] then (weights.map Prod.snd).sum * 4
  else (analyses.length : ℚ) * 4

/-- `normalized_score`: `100 - int(current / max * 100)` when
`max > 0`, else 50, then clamped into `[0, 100]`.  `int()` on the
non-negative quotient is truncation, i.e. `Int.floor`. -/
def normalizedScore (weights : List (ClauseCategory × ℚ))
    (analyses : List ClauseAnalysis) : ℤ :=
  let rc := riskCounts weights analyses
  let maxPossible := maxPossibleScore weights analyses
  let raw : ℤ :=
    if 0 < maxPossible then 100 - Int.floor (currentScore rc / maxPossible * 100)
    else 50
  max 0 (min 100 raw)

/-- The overall-level decision chain of `_assess_overall_risk`,
operating on the weighted buckets. -/
def overallLevel (rc : RiskCounts) : RiskLevel :=
  if 0 < rc.critical_risk then .critical_risk
  else if 1 < rc.high_risk then .high_risk
  else if 2 < rc.medium_risk ∨ rc.high_risk = 1 then .medium_risk
  else .low_risk

/-- Titles of the high- or critical-risk clauses, for the explanation. -/
def highRiskTitles (analyses : List ClauseAnalysis) : List String :=
  (analyses.filter (fun a =>
      a.clause.risk_level = RiskLevel.high_risk ∨
      a.clause.risk_level = RiskLevel.critical_risk)).map
    (fun a => a.clause.title)

/-- The explanation string assembled by `_assess_overall_risk`. -/
def riskExplanation (analyses : List ClauseAnalysis) (score : ℤ) : String :=
  let titles := highRiskTitles analyses
  let head :=
    if titles ≠ [] then
      "This contract has " ++ toString titles.length ++
        " high or critical risk clauses that require attention: " ++
        String.intercalate ", " titles ++ ". "
    else "This contract has no high or critical risk clauses. "
  head ++ "Overall contract risk score: " ++ toString score ++ "/100. "

/-- `_assess_overall_risk`: returns the overall risk level, the
explanation, and the normalized score. -/
def assessOverallRisk (weights : List (ClauseCategory × ℚ))
    (analyses : List ClauseAnalysis) : RiskLevel × String × ℤ :=
  let rc := riskCounts weights analyses
  let score := normalizedScore weights analyses
  (overallLevel rc, riskExplanation analyses score, score)

/-- The overall-level rule exactly as the spec words it, counting
clauses (not weighted buckets): any critical clause, else more than
one high clause, else more than two medium clauses or exactly one high
clause, else low. Stated from the spec for comparison with
`overallLevel`. -/
def claimedOverallLevel (analyses : List ClauseAnalysis) : RiskLevel :=
  let count := fun (l : RiskLevel) =>
    (analyses.filter (fun a => a.clause.risk_level = l)).length
  if 0 < count .critical_risk then .critical_risk
  else if 1 < count .high_risk then .high_risk
  else if 2 < count .medium_risk ∨ count .high_risk = 1 then .medium_risk
  else .low_risk

/-- The score formula exactly as the spec words it, with rounding
instead of truncation. Stated from the spec for comparison with
`normalizedScore`. -/
def claimedNormalizedScore (weights : List (ClauseCategory × ℚ))
    (analyses : List ClauseAnalysis) : ℤ :=
  let rc := riskCounts weights analyses
  let maxPossible := maxPossibleScore weights analyses
  if maxPossible = 0 then 50
  else max 0 (min 100 (100 - round (currentScore rc / maxPossible * 100)))

/-! ## String scanning primitives

Executable models of the few Python string/regex operations the
services use: substring containment (`in`), leftmost substring search
(`str.find`), and character classes. -/

/-- Python `str.lower()` (ASCII case folding), defined directly over
the character data. -/
def lowerData (s : String) : List Char :=
  s.data.map Char.toLower

/-- `lowerData` repackaged as a string. -/
def lowerStr (s : String) : String :=
  String.mk (lowerData s)

/-- Whether `needle` occurs as a contiguous sublist of `hay`
(the Python `in` operator on strings). -/
def subList (needle : List Char) : List Char → Bool
  | [] => needle.isEmpty
  | c :: rest => needle.isPrefixOf (c :: rest) || subList needle rest

/-- `needle in hay` on strings, case-sensitive. -/
def containsSub (hay needle : String) : Bool :=
  subList needle.data hay.data

/-- Index of the first occurrence of `needle` in `hay`, if any. -/
def findSub (needle : List Char) : List Char → Option ℕ
  | [] => if needle.isEmpty then some 0 else none
  | c :: rest =>
    if needle.isPrefixOf (c :: rest) then some 0
    else (findSub needle rest).map (· + 1)

/-- Python `str.find`: first index of `needle` in `hay`, or `-1`. -/
def strFind (hay needle : String) : Int :=
  match findSub needle.data hay.data with
  | some n => (n : Int)
  | none => -1

/-- The characters matched by the regex class `\s`. -/
def isPySpace (c : Char) : Bool :=
  c = ' ' || c = '\t' || c = '\n' || c = '\x0d' || c = '\x0b' || c = '\x0c'

/-- ASCII decimal digit test (`\d` and Python `int()` digits). -/
def isDigitCh (c : Char) : Bool :=
  '0' ≤ c && c ≤ '9'

/-- Numeric value of a run of decimal digits. -/
def digitsToNat (l : List Char) : ℕ :=
  l.foldl (fun acc c => acc * 10 + (c.toNat - 48)) 0

/-! ## ClauseExtractor (`_extract_clauses`)

The JSON reply is modelled at the parse boundary: `none` stands for a
reply that `json.loads` rejects (`json.JSONDecodeError`), and
`some clausesData` for a successfully parsed array of objects, each
field being present or absent. -/

/-- One parsed JSON clause object, each key optional as under
`dict.get`. The `category` and `risk_level` fields carry the raw
model-provided strings. -/
structure ClauseData where
  title : Option String
  text : Option String
  category : Option String
  risk_level : Option String
  risk_explanation : Option String
deriving DecidableEq, Repr

/-- Modelled from the spec: the pydantic model layer
(`app/models/contract_analysis_models.py`) that normalizes a raw
category string into the closed `ClauseCategory` enumeration is absent
from the sources; per the spec ingestion invariant, a recognized value
maps to its member and any unrecognized string maps to `other`. -/
def parseCategory (s : String) : ClauseCategory :=
  (allCategories.find? (fun c => c.value = s)).getD ClauseCategory.other

/-- Modelled from the spec: the absent model layer's normalization of a
raw risk-level string; a recognized value maps to its member and any
unrecognized string maps to the field default `low_risk` used by
`_extract_clauses`. -/
def parseRiskLevel (s : String) : RiskLevel :=
  (allRiskLevels.find? (fun l => l.value = s)).getD RiskLevel.low_risk

/-- The fallback explanation text of the parse-failure branch. -/
def parseFailureExplanation : String :=
  "Unable to parse contract into clauses. Manual review recommended."

/-- `_extract_clauses` after the model call: builds the clause list
from the parsed reply, or the single whole-document fallback clause
when parsing failed. -/
def extractClauses (contractText : String)
    (parsed : Option (List ClauseData)) : List ContractClause :=
  match parsed with
  | some clausesData =>
    clausesData.enum.map (fun p =>
      let idx := p.1
      let cd := p.2
      let text := cd.text.getD ""
      let start := strFind contractText text
      { title := cd.title.getD ("Clause " ++ toString (idx + 1))
        text := text
        category := match cd.category with
          | some s => parseCategory s
          | none => ClauseCategory.other
        risk_level := match cd.risk_level with
          | some s => parseRiskLevel s
          | none => RiskLevel.low_risk
        risk_explanation := cd.risk_explanation.getD ""
        position := some (start, if 0 ≤ start then start + (text.length : Int) else 0) })
  | none =>
    [{ title := "Full Contract"
       text := contractText.take 1000 ++ (if 1000 < contractText.length then "..." else "")
       category := ClauseCategory.other
       risk_level := RiskLevel.medium_risk
       risk_explanation := parseFailureExplanation
       position := none }]

/-! ## TemplateMatcher (`_compare_to_templates`) -/

/-- A stored standard template: id, name, and one standard clause text
per covered category. -/
structure StandardTemplate where
  id : String
  name : String
  clauses : List (ClauseCategory × String)
deriving DecidableEq, Repr

/-- A template comparison result. -/
structure TemplateMatch where
  template_id : String
  template_name : String
  similarity_score : ℚ
  differences : String
deriving DecidableEq, Repr

/-- The tail of the similarity regex after the literal phrase:
`[:\s]*([0-9]\.[0-9])`. Skips colons/whitespace greedily, then
requires digit, dot, digit, and captures the two digit characters. -/
def simTail (l : List Char) : Option (Char × Char) :=
  match l.dropWhile (fun c => c = ':' || isPySpace c) with
  | d1 :: '.' :: d2 :: _ =>
    if isDigitCh d1 && isDigitCh d2 then some (d1, d2) else none
  | _ => none

/-- Leftmost match of `similarity score[:\s]*([0-9]\.[0-9])` over an
already-lowercased character list, capturing the digit group. -/
def scanSimilarity : List Char → Option (Char × Char)
  | [] => none
  | c :: rest =>
    if ("similarity score".data).isPrefixOf (c :: rest) then
      match simTail ((c :: rest).drop ("similarity score".data).length) with
      | some p => some p
      | none => scanSimilarity rest
    else scanSimilarity rest

/-- `float()` applied to the captured group `d.d`. -/
def digitPairValue (p : Char × Char) : ℚ :=
  ((p.1.toNat - 48) * 10 + (p.2.toNat - 48) : ℕ) / 10

/-- The similarity-score extraction of `_compare_to_templates`:
`re.search(r'similarity score[:\s]*([0-9]\.[0-9])', result, IGNORECASE)`
converted by `float()`, with default `0.5` when there is no match. -/
def extractSimilarityScore (result : String) : ℚ :=
  match scanSimilarity (lowerData result) with
  | some p => digitPairValue p
  | none => 1/2

/-- The differences-narrative extraction of `_compare_to_templates`:
when the reply mentions "differences", the first paragraph (split on
blank lines) containing it, else the literal default. -/
def extractDifferencesText (result : String) : String :=
  if containsSub (lowerStr result) "differences" then
    match (result.splitOn "\n\n").find?
        (fun part => containsSub (lowerStr part) "differences") with
    | some part => part
    | none => "Unknown differences"
  else "Unknown differences"

/-- `_compare_to_templates` after the model calls: the stored templates
are an association list and the model reply for each comparison is
supplied by `replyFor`. Templates missing from the store or lacking a
clause of the same category are skipped; the rest produce one
`TemplateMatch` each, in input id order. -/
def compareToTemplates (store : List (String × StandardTemplate))
    (replyFor : String → String) (clause : ContractClause)
    (templateIds : List String) : List TemplateMatch :=
  templateIds.filterMap (fun tid =>
    match store.lookup tid with
    | none => none
    | some tmpl =>
      match tmpl.clauses.lookup clause.category with
      | none => none
      | some _ =>
        let result := replyFor tid
        some { template_id := tid
               template_name := tmpl.name
               similarity_score := extractSimilarityScore result
               differences := extractDifferencesText result })

/-! ## ContractComparator (`compare_contracts` and helpers) -/

/-- A rated difference between two same-category clauses. -/
structure ClauseDifference where
  category : ClauseCategory
  title : String
  contract_a_text : String
  contract_b_text : String
  significance : RiskLevel
  explanation : String
deriving DecidableEq, Repr

/-- The comparison result record. -/
structure ContractComparisonResult where
  contract_a_name : String
  contract_b_name : String
  common_clauses : List ClauseCategory
  unique_to_a : List ClauseCategory
  unique_to_b : List ClauseCategory
  differences : List ClauseDifference
  recommendation : String
deriving DecidableEq, Repr

/-- `_group_clauses_by_category`: dictionary keyed by category, later
clauses overwriting earlier ones (last-write-wins). -/
def groupClausesByCategory (clauses : List ContractClause) :
    ClauseCategory → Option ContractClause :=
  clauses.foldl
    (fun m c => fun cat => if cat = c.category then some c else m cat)
    (fun _ => none)

/-- The significance scan of `_analyze_difference`: the first
`RiskLevel`, in enum declaration order, whose value string occurs in
the lowercased reply; default `medium_risk`. -/
def extractSignificance (result : String) : RiskLevel :=
  (allRiskLevels.find?
      (fun l => containsSub (lowerStr result) l.value)).getD RiskLevel.medium_risk

/-- The default explanation sentence of `_analyze_difference`. -/
def differenceDefaultExplanation : String :=
  "There are notable differences between these clauses that may affect legal rights and obligations."

/-- The explanation scan of `_analyze_difference`: the first paragraph
containing "implication" or "explanation", else the default sentence. -/
def extractDiffExplanation (result : String) : String :=
  match (result.splitOn "\n\n").find? (fun part =>
      containsSub (lowerStr part) "implication" ||
      containsSub (lowerStr part) "explanation") with
  | some part => part
  | none => differenceDefaultExplanation

/-- `_analyze_difference` after the model call: builds the
`ClauseDifference` for two same-category clauses from the reply. -/
def analyzeDifference (result : String) (clause_a clause_b : ContractClause) :
    ClauseDifference :=
  { category := clause_a.category
    title := clause_a.title
    contract_a_text := clause_a.text
    contract_b_text := clause_b.text
    significance := extractSignificance result
    explanation := extractDiffExplanation result }

/-- The skip condition of the differences loop:
`request.focus_categories and category not in request.focus_categories`
(an empty focus list is falsy and disables the filter). -/
def focusSkips (focus : Option (List ClauseCategory))
    (cat : ClauseCategory) : Bool :=
  match focus with
  | none => false
  | some fs => !fs.isEmpty && !fs.contains cat

/-- `_generate_comparison_recommendation`. -/
def generateComparisonRecommendation (differences : List ClauseDifference)
    (unique_to_a unique_to_b : List ClauseCategory) : String :=
  let highRisk := differences.filter (fun d =>
    d.significance = RiskLevel.high_risk ∨ d.significance = RiskLevel.critical_risk)
  let parts₁ : List String :=
    if highRisk ≠ [] then
      ["Pay close attention to significant differences in the following clauses: " ++
        String.intercalate ", " (highRisk.map (fun d => d.category.value)) ++ "."]
    else []
  let parts₂ : List String :=
    if unique_to_a ≠ [] then
      parts₁ ++ ["Contract A contains these clauses not found in Contract B: " ++
        String.intercalate ", " (unique_to_a.map ClauseCategory.value) ++ "."]
    else parts₁
  let parts₃ : List String :=
    if unique_to_b ≠ [] then
      parts₂ ++ ["Contract B contains these clauses not found in Contract A: " ++
        String.intercalate ", " (unique_to_b.map ClauseCategory.value) ++ "."]
    else parts₂
  let parts₄ : List String :=
    if parts₃ = [] then
      ["Both contracts are substantially similar in their legal provisions."]
    else parts₃
  String.intercalate " "
    (parts₄ ++
      ["For a complete legal assessment, consult with qualified legal counsel in the relevant jurisdiction."])

/-- `compare_contracts` after clause extraction: the two extracted
clause lists are grouped by category; common and unique categories are
computed as set operations (enumerated here in declaration order);
each unskipped common category with verbatim-different texts yields a
`ClauseDifference`, with the model reply for a category supplied by
`replyFor`. -/
def compareContracts (replyFor : ClauseCategory → String)
    (clauses_a clauses_b : List ContractClause)
    (focus : Option (List ClauseCategory))
    (name_a name_b : Option String) : ContractComparisonResult :=
  let grouped_a := groupClausesByCategory clauses_a
  let grouped_b := groupClausesByCategory clauses_b
  let commonCategories := allCategories.filter (fun c =>
    (grouped_a c).isSome && (grouped_b c).isSome)
  let uniqueToA := allCategories.filter (fun c =>
    (grouped_a c).isSome && (grouped_b c).isNone)
  let uniqueToB := allCategories.filter (fun c =>
    (grouped_a c).isNone && (grouped_b c).isSome)
  let differences := commonCategories.filterMap (fun cat =>
    if focusSkips focus cat then none
    else
      match grouped_a cat, grouped_b cat with
      | some ca, some cb =>
        if ca.text ≠ cb.text then some (analyzeDifference (replyFor cat) ca cb)
        else none
      | _, _ => none)
  { contract_a_name := name_a.getD "Contract A"
    contract_b_name := name_b.getD "Contract B"
    common_clauses := commonCategories
    unique_to_a := uniqueToA
    unique_to_b := uniqueToB
    differences := differences
    recommendation :=
      generateComparisonRecommendation differences uniqueToA uniqueToB }

/-! ## RecommendationEngine (`_generate_recommendations`) -/

/-- The generic recommendation sentence. -/
def genericRecommendation : String :=
  "This contract appears to have reasonable terms, but a thorough review by qualified legal counsel is always recommended."

/-- Python truthiness of the optional `alternative_wording` field:
present and non-empty. -/
def hasAlternativeWording (a : ClauseAnalysis) : Bool :=
  match a.alternative_wording with
  | some s => s ≠ ""
  | none => false

/-- `_generate_recommendations`: one revision/renegotiation line per
high- or critical-risk clause, one line per reported missing clause,
and the single generic sentence when no rule fired. -/
def generateRecommendations (analyses : List ClauseAnalysis)
    (summary : ContractSummary) : List String :=
  let clauseRecs := analyses.filterMap (fun a =>
    if a.clause.risk_level = RiskLevel.high_risk ∨
        a.clause.risk_level = RiskLevel.critical_risk then
      if hasAlternativeWording a then
        some ("Revise the " ++ a.clause.title ++ " clause with more favorable language.")
      else
        some ("Review and potentially renegotiate the " ++ a.clause.title ++ " clause.")
    else none)
  let allRecs := clauseRecs ++ summary.missing_clauses.map
    (fun missing => "Add a missing " ++ missing ++ " clause to the contract.")
  if allRecs = [] then [genericRecommendation] else allRecs

/-! ## AIProcessor (`generate_response`, `process_prompt`)

The underlying chat-completion request is modelled by an `Except`
parameter: `Except.error e` stands for any exception raised by the
request (network, quota, ...), `Except.ok content` for a reply whose
message content is `content`. -/

/-- The typed failure raised by `process_prompt`. -/
structure HTTPErrorResult where
  status_code : ℕ
  detail : String
deriving DecidableEq, Repr

/-- The structured fallback reply text returned by `generate_response`
when any exception is caught. -/
def fallbackResponseText (error_message : String) : String :=
  "Case Summary: Unable to generate analysis\nOutcome Prediction:\n- Favorable Percentage: 50\n- Confidence Level: Low\n- Rationale: AI analysis failed due to technical error.\n\nError Details: " ++
    error_message ++
    "\n\nDisclaimer: This is a fallback response. Please consult with a legal professional for accurate advice."

/-- `AIProcessor.generate_response`: on success, the stripped content
(raising and then catching a ValueError when it is empty); on any
failure of the call, the structured fallback text. The function never
propagates a failure. -/
def generate_response (call : Except String String) : String :=
  match call with
  | Except.ok content =>
    let generated := content.trim
    if generated = "" then
      fallbackResponseText ("Error generating response: " ++ "Generated response is empty")
    else generated
  | Except.error e =>
    fallbackResponseText ("Error generating response: " ++ e)

/-- `AIProcessor.process_prompt`: on success, the stripped content; on
failure of the call, a raised `HTTPException(500, ...)`. -/
def process_prompt (call : Except String String) :
    Except HTTPErrorResult String :=
  match call with
  | Except.ok content => Except.ok content.trim
  | Except.error e =>
    Except.error { status_code := 500
                   detail := "Error processing prompt: " ++ e }

/-! ## OutcomeExtractor (`PredictiveAnalysisService`)

Executable model of `_extract_section` and
`_extract_alternative_outcomes`. The regular expression
`start.*?(?=end|$)` with `IGNORECASE | DOTALL` is the segment from the
first case-insensitive occurrence of the start marker up to the first
occurrence of the end marker after it (or the end of the text); the
end-marker string `"$"` is the anchor, i.e. end of text. -/

/-- Case-insensitive prefix test; `needle` is already lowercased. -/
def isPrefixCI (needle hay : List Char) : Bool :=
  needle.isPrefixOf ((hay.take needle.length).map Char.toLower)

/-- The character class `[:\s]` used after section markers. -/
def isColonSpace (c : Char) : Bool :=
  c = ':' || isPySpace c

/-- `re.sub(start_marker + "[:\s]*", "", s, flags=IGNORECASE)`: remove
every (leftmost, non-overlapping) occurrence of the marker followed by
a greedy run of colons and whitespace. `marker` is lowercased and
nonempty at every call site. -/
def removeMarkerOcc (marker : List Char) : List Char → List Char
  | [] => []
  | c :: rest =>
    if marker ≠ [] ∧ isPrefixCI marker (c :: rest) then
      removeMarkerOcc marker (((c :: rest).drop marker.length).dropWhile isColonSpace)
    else c :: removeMarkerOcc marker rest
termination_by l => l.length
decreasing_by
  · have h₁ : (((c :: rest).drop marker.length).dropWhile isColonSpace).length ≤
        ((c :: rest).drop marker.length).length := by
      generalize (c :: rest).drop marker.length = l
      induction l with
      | nil => simp [List.dropWhile]
      | cons d ds ih =>
        simp only [List.dropWhile]
        split
        · exact Nat.le_succ_of_le ih
        · simp
    have h₂ : ((c :: rest).drop marker.length).length =
        (c :: rest).length - marker.length := List.length_drop ..
    have h₃ : 1 ≤ marker.length := by
      rcases marker with _ | _ <;> simp_all
    simp only [List.length_cons] at *
    omega
  · simp

/-- Python `str.strip()` over the `\s` class. -/
def pyStrip (s : String) : String :=
  String.mk (((s.data.dropWhile isPySpace).reverse.dropWhile isPySpace).reverse)

/-- `_extract_section(text, start_marker, end_marker)`: the segment
from the first case-insensitive occurrence of the start marker to the
first occurrence of the end marker after it (or end of text; the
marker `"$"` always means end of text), with every occurrence of the
start marker and trailing colons/whitespace removed, stripped. Empty
when the start marker does not occur. -/
def extractSection (text startM endM : String) : String :=
  let lower := lowerData text
  match findSub (lowerData startM) lower with
  | none => ""
  | some i =>
    let j := i + startM.length
    let k :=
      if endM = "$" then text.length
      else
        match findSub (lowerData endM) (lower.drop j) with
        | some m => j + m
        | none => text.length
    let seg := (text.data.drop i).take (k - i)
    pyStrip (String.mk (removeMarkerOcc (lowerData startM) seg))

/-- The alternative-outcomes section: between "Alternative outcomes"
and "Disclaimer", or to the end of the text when that gives nothing. -/
def altOutcomesSection (text : String) : String :=
  let s₁ := extractSection text "Alternative outcomes" "Disclaimer"
  if s₁ = "" then extractSection text "Alternative outcomes" "$" else s₁

/-- One alternation of the outcome-block separator
`\n\s*[-*]\s+|\n\s*\d+\.\s+` matched at the head of the list: returns
the remainder after the separator when it matches. -/
def matchOutcomeSep : List Char → Option (List Char)
  | '\n' :: rest =>
    match rest.dropWhile isPySpace with
    | c :: r₂ =>
      if c = '-' || c = '*' then
        match r₂ with
        | d :: _ => if isPySpace d then some (r₂.dropWhile isPySpace) else none
        | [] => none
      else
        let ds := (c :: r₂).takeWhile isDigitCh
        if ds ≠ [] then
          match (c :: r₂).drop ds.length with
          | '.' :: r₃ =>
            (match r₃ with
             | d :: _ => if isPySpace d then some (r₃.dropWhile isPySpace) else none
             | [] => none)
          | _ => none
        else none
    | [] => none
  | _ => none

/-- Any remainder produced by `matchOutcomeSep` is strictly shorter
than its input. -/
theorem matchOutcomeSep_length_lt {l rem : List Char}
    (h : matchOutcomeSep l = some rem) : rem.length < l.length := by
  match l with
  | [] => simp [matchOutcomeSep] at h
  | c₀ :: rest =>
    have hdw : ∀ (q : Char → Bool) (m : List Char),
        (m.dropWhile q).length ≤ m.length := by
      intro q m
      induction m with
      | nil => simp [List.dropWhile]
      | cons d ds ih =>
        simp only [List.dropWhile]
        split
        · exact Nat.le_succ_of_le ih
        · simp
    by_cases hc : c₀ = '\n'
    · subst hc
      simp only [matchOutcomeSep] at h
      have h₁ : (rest.dropWhile isPySpace).length ≤ rest.length := hdw ..
      match hm : rest.dropWhile isPySpace with
      | [] => rw [hm] at h; simp at h
      | c :: r₂ =>
        rw [hm] at h h₁
        simp only [List.length_cons] at h₁
        by_cases hb : (c = '-' || c = '*') = true
        · simp only [hb, if_pos] at h
          match r₂ with
          | [] => simp at h
          | d :: r₄ =>
            by_cases hs : isPySpace d = true
            · simp only [hs, if_pos] at h
              cases h
              have := hdw isPySpace (d :: r₄)
              simp only [List.length_cons] at *
              omega
            · simp [hs] at h
        · simp only [hb, if_neg, Bool.false_eq_true, not_false_iff] at h
          split at h
          case neg.isTrue hds =>
            have h₂ : ((c :: r₂).drop ((c :: r₂).takeWhile isDigitCh).length).length ≤
                (c :: r₂).length := by
              rw [List.length_drop]
              omega
            match hdr : (c :: r₂).drop ((c :: r₂).takeWhile isDigitCh).length with
            | [] => rw [hdr] at h; simp at h
            | '.' :: r₃ =>
              rw [hdr] at h h₂
              match r₃ with
              | [] => simp at h
              | d :: r₄ =>
                by_cases hs : isPySpace d = true
                · simp only [hs, if_pos] at h
                  cases h
                  have := hdw isPySpace (d :: r₄)
                  simp only [List.length_cons] at *
                  omega
                · simp [hs] at h
            | c₃ :: r₃ =>
              rw [hdr] at h
              by_cases hdot : c₃ = '.'
              · subst hdot
                rw [← hdr] at h
                rw [hdr] at h
                match r₃ with
                | [] => simp at h
                | d :: r₄ =>
                  by_cases hs : isPySpace d = true
                  · simp only [hs, if_pos] at h
                    cases h
                    have := hdw isPySpace (d :: r₄)
                    rw [hdr] at h₂
                    simp only [List.length_cons] at *
                    omega
                  · simp [hs] at h
              · have : (match c₃ :: r₃ with
                    | '.' :: r₃ =>
                      (match r₃ with
                       | d :: _ => if isPySpace d then some (r₃.dropWhile isPySpace) else none
                       | [] => none)
                    | _ => none) = (none : Option (List Char)) := by
                  match c₃, hdot with
                  | c₃, hdot =>
                    cases hc₃ : c₃ == '.'
                    · simp at hc₃
                      split <;> simp_all
                    · simp at hc₃; exact absurd hc₃ hdot
                rw [this] at h
                simp at h
          case neg.isFalse => simp at h
    · have : matchOutcomeSep (c₀ :: rest) = none := by
        simp only [matchOutcomeSep]
        match c₀, hc with
        | c₀, hc =>
          cases hn : c₀ == '\n'
          · simp at hn
            split <;> simp_all
          · simp at hn; exact absurd hn hc
      rw [this] at h
      exact absurd h (by simp)

/-- `re.split(r"\n\s*[-*]\s+|\n\s*\d+\.\s+", s)`: the tokens between
leftmost non-overlapping separator matches. -/
def splitOutcomeBlocks (l : List Char) : List (List Char) :=
  match l with
  | [] => [[]]
  | c :: rest =>
    match h : matchOutcomeSep (c :: rest) with
    | some rem => [] :: splitOutcomeBlocks rem
    | none =>
      match splitOutcomeBlocks rest with
      | t :: ts => (c :: t) :: ts
      | [] => [[c]]
termination_by l.length
decreasing_by
  · exact matchOutcomeSep_length_lt h
  · simp

/-- One extracted alternative outcome. -/
structure AlternativeOutcome where
  scenario : String
  probability : ℕ
  impact : String
deriving DecidableEq, Repr

/-- The scenario capture `re.match(r"([^:.]*)[:.]?", block)`: the
leading run of characters other than colon and dot, stripped. -/
def scenarioOf (block : List Char) : String :=
  pyStrip (String.mk (block.takeWhile (fun c => !(c = ':' || c = '.'))))

/-- The probability capture `re.search(r"(\d+)\s*%", block)`: the
first digit run followed by optional whitespace and a percent sign. -/
def scanProbability : List Char → Option ℕ
  | [] => none
  | c :: rest =>
    if isDigitCh c then
      let ds := (c :: rest).takeWhile isDigitCh
      match ((c :: rest).drop ds.length).dropWhile isPySpace with
      | '%' :: _ => some (digitsToNat ds)
      | _ => scanProbability rest
    else scanProbability rest

/-- The impact keyword ladder of `_extract_alternative_outcomes`. -/
def impactOf (blockLower : String) : String :=
  if containsSub blockLower "significant" || containsSub blockLower "severe" ||
      containsSub blockLower "major" then "High impact"
  else if containsSub blockLower "moderate" || containsSub blockLower "medium" then
    "Moderate impact"
  else if containsSub blockLower "minor" || containsSub blockLower "minimal" ||
      containsSub blockLower "small" then "Low impact"
  else "Undetermined impact"

/-- The per-block loop of `_extract_alternative_outcomes`: skip blank
blocks, build scenario/probability/impact, and keep the entry only
when the scenario is longer than 5 characters. -/
def extractedOutcomes (text : String) : List AlternativeOutcome :=
  let seg := altOutcomesSection text
  (splitOutcomeBlocks seg.data).filterMap (fun rawBlock =>
    let block := pyStrip (String.mk rawBlock)
    if block = "" then none
    else
      let scn := scenarioOf block.data
      if 5 < scn.length then
        some { scenario := scn
               probability := (scanProbability block.data).getD 0
               impact := impactOf (lowerStr block) }
      else none)

/-- The synthesized default outcome entry. -/
def defaultAlternativeOutcome : AlternativeOutcome :=
  { scenario := "Alternative resolution through settlement"
    probability := 30
    impact := "Moderate impact" }

/-- `_extract_alternative_outcomes`: the extracted entries, or the
single synthesized default when none were extracted. -/
def extractAlternativeOutcomes (text : String) : List AlternativeOutcome :=
  let outcomes := extractedOutcomes text
  if outcomes = [] then [defaultAlternativeOutcome] else outcomes

/-! ## Specification-side definitions used in theorem statements -/

/-- The weighted count of clauses at a given risk level: the sum of
the category weights of the clauses carrying that level. Used to
characterize the buckets of `riskCounts`. -/
def weightedCount (weights : List (ClauseCategory × ℚ))
    (analyses : List ClauseAnalysis) (l : RiskLevel) : ℚ :=
  ((analyses.filter (fun a => a.clause.risk_level = l)).map
    (fun a => weightOf weights a.clause.category)).sum

/-- Whether the two grouped contracts both hold a clause of category
`c` and those clauses have different texts. -/
def groupedTextsDiffer (clauses_a clauses_b : List ContractClause)
    (c : ClauseCategory) : Bool :=
  match groupClausesByCategory clauses_a c, groupClausesByCategory clauses_b c with
  | some ca, some cb => ca.text ≠ cb.text
  | _, _ => false

/-! ## Sample inputs for concrete witness and counterexample theorems -/

/-- A single high-risk indemnification clause analysis (weight 1.5). -/
def sampleHighIndemnification : ClauseAnalysis :=
  { clause := { title := "Indemnity", text := "indemnity text"
                category := ClauseCategory.indemnification
                risk_level := RiskLevel.high_risk
                risk_explanation := "broad indemnity", position := none }
    alternative_wording := none, legal_concerns := [] }

/-- A single medium-risk confidentiality clause analysis (weight 1.0). -/
def sampleMediumConfidentiality : ClauseAnalysis :=
  { clause := { title := "Confidentiality", text := "confidentiality text"
                category := ClauseCategory.confidentiality
                risk_level := RiskLevel.medium_risk
                risk_explanation := "standard confidentiality", position := none }
    alternative_wording := none, legal_concerns := [] }

/-- A high-risk liability clause analysis. -/
def samplePermA : ClauseAnalysis :=
  { clause := { title := "Liability", text := "liability text"
                category := ClauseCategory.liability
                risk_level := RiskLevel.high_risk
                risk_explanation := "unlimited liability", position := none }
    alternative_wording := none, legal_concerns := [] }

/-- A low-risk termination clause analysis. -/
def samplePermB : ClauseAnalysis :=
  { clause := { title := "Termination", text := "termination text"
                category := ClauseCategory.termination
                risk_level := RiskLevel.low_risk
                risk_explanation := "mutual termination", position := none }
    alternative_wording := none, legal_concerns := [] }

/-! ## Lemmas about `riskCounts` -/

/-- Adding to one bucket and reading another. -/
theorem RiskCounts.get_add (rc : RiskCounts) (l lv : RiskLevel) (w : ℚ) :
    (rc.add l w).get lv = rc.get lv + (if l = lv then w else 0) := by
  cases l <;> cases lv <;> simp [RiskCounts.add, RiskCounts.get]

/-- Pointwise equal bucket records are equal. -/
theorem RiskCounts.ext_get {a b : RiskCounts}
    (h : ∀ lv, a.get lv = b.get lv) : a = b := by
  cases a
  cases b
  have h₀ := h .no_risk
  have h₁ := h .low_risk
  have h₂ := h .medium_risk
  have h₃ := h .high_risk
  have h₄ := h .critical_risk
  simp only [RiskCounts.get] at h₀ h₁ h₂ h₃ h₄
  simp_all

/-- Generalized accumulation: the fold of `_assess_overall_risk`
starting from any bucket record. -/
theorem riskCounts_foldl_get (weights : List (ClauseCategory × ℚ))
    (analyses : List ClauseAnalysis) (rc : RiskCounts) (lv : RiskLevel) :
    (analyses.foldl
      (fun rc a => rc.add a.clause.risk_level (weightOf weights a.clause.category))
      rc).get lv = rc.get lv + weightedCount weights analyses lv := by
  induction analyses generalizing rc with
  | nil => simp [weightedCount]
  | cons a rest ih =>
    rw [List.foldl_cons, ih]
    rw [RiskCounts.get_add]
    have : weightedCount weights (a :: rest) lv =
        (if a.clause.risk_level = lv then weightOf weights a.clause.category else 0) +
          weightedCount weights rest lv := by
      simp only [weightedCount, List.filter_cons]
      split
      · next hcond =>
        simp only [decide_eq_true_eq] at hcond
        simp [hcond]
      · next hcond =>
        simp only [decide_eq_true_eq] at hcond
        simp [hcond]
    rw [this]
    ring

/-- Each bucket of `riskCounts` is the weighted count of its level. -/
theorem riskCounts_get (weights : List (ClauseCategory × ℚ))
    (analyses : List ClauseAnalysis) (lv : RiskLevel) :
    (riskCounts weights analyses).get lv = weightedCount weights analyses lv := by
  rw [riskCounts, riskCounts_foldl_get]
  cases lv <;> simp [RiskCounts.get]

/-- `weightedCount` is invariant under permutation of the clause list. -/
theorem weightedCount_perm (weights : List (ClauseCategory × ℚ))
    {l₁ l₂ : List ClauseAnalysis} (h : l₁.Perm l₂) (lv : RiskLevel) :
    weightedCount weights l₁ lv = weightedCount weights l₂ lv :=
  (((h.filter _).map _).sum_eq)

/-- `riskCounts` is invariant under permutation of the clause list. -/
theorem riskCounts_perm (weights : List (ClauseCategory × ℚ))
    {l₁ l₂ : List ClauseAnalysis} (h : l₁.Perm l₂) :
    riskCounts weights l₁ = riskCounts weights l₂ :=
  RiskCounts.ext_get (fun lv => by
    rw [riskCounts_get, riskCounts_get, weightedCount_perm weights h])

/-- The individual bucket fields, written via `weightedCount`. -/
theorem riskCounts_fields (weights : List (ClauseCategory × ℚ))
    (analyses : List ClauseAnalysis) :
    (riskCounts weights analyses).critical_risk =
        weightedCount weights analyses .critical_risk ∧
      (riskCounts weights analyses).high_risk =
        weightedCount weights analyses .high_risk ∧
      (riskCounts weights analyses).medium_risk =
        weightedCount weights analyses .medium_risk ∧
      (riskCounts weights analyses).low_risk =
        weightedCount weights analyses .low_risk ∧
      (riskCounts weights analyses).no_risk =
        weightedCount weights analyses .no_risk :=
  ⟨riskCounts_get weights analyses .critical_risk,
   riskCounts_get weights analyses .high_risk,
   riskCounts_get weights analyses .medium_risk,
   riskCounts_get weights analyses .low_risk,
   riskCounts_get weights analyses .no_risk⟩

/-! ## Claim C1 -/

/-- Claim C1, as stated, is false: the decision chain of
`_assess_overall_risk` compares the weighted bucket sums, not clause
counts. A single high-risk indemnification clause weighs 1.5 > 1, so
the code returns `high_risk` where the claimed clause-count rule
(exactly one high-risk clause) returns `medium_risk`. -/
theorem overall_level_count_rule_counterexample :
    (assessOverallRisk defaultRiskWeights [sampleHighIndemnification]).1 =
        RiskLevel.high_risk ∧
      claimedOverallLevel [sampleHighIndemnification] = RiskLevel.medium_risk := by
  constructor
  · have hrc : riskCounts defaultRiskWeights [sampleHighIndemnification] =
        ⟨0, 0, 0, 3/2, 0⟩ := by
      simp [riskCounts, List.foldl, RiskCounts.add, weightOf, defaultRiskWeights,
        sampleHighIndemnification]
    simp only [assessOverallRisk, overallLevel, hrc]
    norm_num
  · decide

/-- Claim C1 (amended): the overall level returned by
`_assess_overall_risk` follows the exact priority order of the claim,
but over the weighted sums of category weights per risk level (each
clause contributing its category weight, default 1.0) instead of
clause counts: positive weighted critical sum yields `critical_risk`;
otherwise weighted high sum greater than 1 yields `high_risk`;
otherwise weighted medium sum greater than 2 or weighted high sum
exactly 1 yields `medium_risk`; otherwise `low_risk`. -/
theorem overall_level_weighted_rule (weights : List (ClauseCategory × ℚ))
    (analyses : List ClauseAnalysis) :
    (assessOverallRisk weights analyses).1 =
      (if 0 < weightedCount weights analyses .critical_risk then
        RiskLevel.critical_risk
      else if 1 < weightedCount weights analyses .high_risk then
        RiskLevel.high_risk
      else if 2 < weightedCount weights analyses .medium_risk ∨
          weightedCount weights analyses .high_risk = 1 then
        RiskLevel.medium_risk
      else RiskLevel.low_risk) := by
  obtain ⟨h₁, h₂, h₃, -, -⟩ := riskCounts_fields weights analyses
  simp only [assessOverallRisk, overallLevel, h₁, h₂, h₃]

/-! ## Claim C2 -/

/-- Claim C2, as stated, is false: the score uses Python `int()`
truncation, not rounding. For one medium-risk confidentiality clause,
`current/max*100 = 200/26 ≈ 7.69`, so the code returns `100 - 7 = 93`
while the claimed rounding formula returns `100 - 8 = 92`. -/
theorem normalized_score_round_counterexample :
    (assessOverallRisk defaultRiskWeights [sampleMediumConfidentiality]).2.2 = 93 ∧
      claimedNormalizedScore defaultRiskWeights [sampleMediumConfidentiality] = 92 := by
  have hrc : riskCounts defaultRiskWeights [sampleMediumConfidentiality] =
      ⟨0, 0, 1, 0, 0⟩ := by
    simp [riskCounts, List.foldl, RiskCounts.add, weightOf, defaultRiskWeights,
      sampleMediumConfidentiality]
  have hmax : maxPossibleScore defaultRiskWeights [sampleMediumConfidentiality] = 26 := by
    simp [maxPossibleScore, defaultRiskWeights]
    try norm_num
  constructor
  · simp only [assessOverallRisk, normalizedScore, hrc, hmax, currentScore]
    norm_num
  · simp only [claimedNormalizedScore, hrc, hmax, currentScore, round_eq]
    norm_num

/-- Claim C2 (amended): the score returned by `_assess_overall_risk`
equals `clamp(100 - floor(current / max_possible * 100), 0, 100)`
(floor, i.e. truncation of the non-negative quotient, not rounding),
where `current` is the weighted sum of risk-level ordinals and
`max_possible` is the configured-weight sum times 4, or the clause
count times 4 when no weights are configured; when `max_possible = 0`
the score is exactly 50; and the score always lies in `[0, 100]`. -/
theorem normalized_score_floor_formula (weights : List (ClauseCategory × ℚ))
    (analyses : List ClauseAnalysis) :
    (assessOverallRisk weights analyses).2.2 =
        max 0 (min 100
          (if 0 < maxPossibleScore weights analyses then
            100 - Int.floor ((weightedCount weights analyses .no_risk * 0 +
              weightedCount weights analyses .low_risk * 1 +
              weightedCount weights analyses .medium_risk * 2 +
              weightedCount weights analyses .high_risk * 3 +
              weightedCount weights analyses .critical_risk * 4) /
                maxPossibleScore weights analyses * 100)
          else 50)) ∧
      0 ≤ (assessOverallRisk weights analyses).2.2 ∧
      (assessOverallRisk weights analyses).2.2 ≤ 100 ∧
      (maxPossibleScore weights analyses = 0 →
        (assessOverallRisk weights analyses).2.2 = 50) := by
  obtain ⟨h₁, h₂, h₃, h₄, h₅⟩ := riskCounts_fields weights analyses
  have hval : (assessOverallRisk weights analyses).2.2 =
      max 0 (min 100
        (if 0 < maxPossibleScore weights analyses then
          100 - Int.floor ((weightedCount weights analyses .no_risk * 0 +
            weightedCount weights analyses .low_risk * 1 +
            weightedCount weights analyses .medium_risk * 2 +
            weightedCount weights analyses .high_risk * 3 +
            weightedCount weights analyses .critical_risk * 4) /
              maxPossibleScore weights analyses * 100)
        else 50)) := by
    simp only [assessOverallRisk, normalizedScore, currentScore, h₁, h₂, h₃, h₄, h₅]
  refine ⟨hval, ?_, ?_, ?_⟩
  · rw [hval]
    exact le_max_left 0 _
  · rw [hval]
    exact max_le (by norm_num) (min_le_left 100 _)
  · intro hmax
    rw [hval, hmax]
    norm_num

/-- Concrete instantiation of the `max_possible = 0` branch of
`normalized_score_floor_formula`: with no configured weights and no
clauses the score is exactly 50. -/
theorem normalized_score_floor_formula_witness :
    maxPossibleScore [] [] = 0 ∧ (assessOverallRisk [] []).2.2 = 50 :=
  ⟨by simp [maxPossibleScore],
   (normalized_score_floor_formula [] []).2.2.2 (by simp [maxPossibleScore])⟩

/-! ## Claim C6 -/

/-- Claim C6: `_assess_overall_risk` is commutative in clause order:
for permuted clause lists the overall risk level and the normalized
score are identical. -/
theorem risk_aggregation_perm (weights : List (ClauseCategory × ℚ))
    (l₁ l₂ : List ClauseAnalysis) (h : l₁.Perm l₂) :
    (assessOverallRisk weights l₁).1 = (assessOverallRisk weights l₂).1 ∧
      (assessOverallRisk weights l₁).2.2 = (assessOverallRisk weights l₂).2.2 := by
  have hrc : riskCounts weights l₁ = riskCounts weights l₂ := riskCounts_perm weights h
  have hmax : maxPossibleScore weights l₁ = maxPossibleScore weights l₂ := by
    simp only [maxPossibleScore, h.length_eq]
  constructor
  · simp only [assessOverallRisk, hrc]
  · simp only [assessOverallRisk, normalizedScore, hrc, hmax]

/-- Concrete instantiation of `risk_aggregation_perm` on a two-element
swap. -/
theorem risk_aggregation_perm_witness :
    (assessOverallRisk defaultRiskWeights [samplePermA, samplePermB]).1 =
        (assessOverallRisk defaultRiskWeights [samplePermB, samplePermA]).1 ∧
      (assessOverallRisk defaultRiskWeights [samplePermA, samplePermB]).2.2 =
        (assessOverallRisk defaultRiskWeights [samplePermB, samplePermA]).2.2 :=
  risk_aggregation_perm defaultRiskWeights [samplePermA, samplePermB]
    [samplePermB, samplePermA] (List.Perm.swap samplePermB samplePermA [])

/-! ## Claim C3 -/

/-- Claim C3: when the model reply is not valid structured data (a
`json.JSONDecodeError`, modelled by the `none` parse result),
`_extract_clauses` returns exactly one clause titled "Full Contract"
whose text is the first 1000 characters of the contract with an
ellipsis marker appended exactly when the contract is longer than 1000
characters, category `other`, risk level `medium_risk`, and an
explanation noting the parse failure; the embedding is a total
function into a clause list, so the parse error is never propagated to
the caller. -/
theorem extract_clauses_parse_failure (contractText : String) :
    extractClauses contractText none =
      [{ title := "Full Contract"
         text := contractText.take 1000 ++
           (if 1000 < contractText.length then "..." else "")
         category := ClauseCategory.other
         risk_level := RiskLevel.medium_risk
         risk_explanation := "Unable to parse contract into clauses. Manual review recommended."
         position := none }] := rfl

/-! ## Claim C4 -/

/-- Claim C4: ingestion of model-provided enumeration strings always
resolves to a fixed member or to the explicit default: a category
string either names the member it maps to or maps to `other`; any
string outside the fixed value set maps to `other`; and a risk-level
string either names the member it maps to or maps to the field default
`low_risk`. -/
theorem enumeration_ingestion_normalization :
    (∀ s, parseCategory s = ClauseCategory.other ∨ (parseCategory s).value = s) ∧
      (∀ s, s ∉ allCategories.map ClauseCategory.value →
        parseCategory s = ClauseCategory.other) ∧
      (∀ s, parseRiskLevel s = RiskLevel.low_risk ∨ (parseRiskLevel s).value = s) := by
  refine ⟨?_, ?_, ?_⟩
  · intro s
    unfold parseCategory
    cases hfind : allCategories.find? (fun c => c.value = s) with
    | none => left; rfl
    | some c =>
      right
      have := List.find?_some hfind
      simpa using this
  · intro s hs
    unfold parseCategory
    have hnone : allCategories.find? (fun c => c.value = s) = none := by
      rw [List.find?_eq_none]
      intro c hc
      simp only [decide_eq_true_eq]
      intro hval
      exact hs (hval ▸ List.mem_map_of_mem ClauseCategory.value hc)
    rw [hnone]
    rfl
  · intro s
    unfold parseRiskLevel
    cases hfind : allRiskLevels.find? (fun l => l.value = s) with
    | none => left; rfl
    | some l =>
      right
      have := List.find?_some hfind
      simpa using this

/-- Concrete instantiation of `enumeration_ingestion_normalization`:
the unrecognized category string "limitation of liability" maps to
`other`. -/
theorem enumeration_ingestion_normalization_witness :
    "limitation of liability" ∉ allCategories.map ClauseCategory.value ∧
      parseCategory "limitation of liability" = ClauseCategory.other :=
  ⟨by decide,
   enumeration_ingestion_normalization.2.1 "limitation of liability" (by decide)⟩

/-! ## Claim C7 -/

/-- Claim C7, as stated, is false: when the underlying chat request of
`generate_response` raises an error, the error is caught and the
structured fallback reply text is returned as an ordinary reply string
in place of a typed failure. -/
theorem collaborator_failure_swallowed_counterexample :
    generate_response (Except.error "network error") =
      fallbackResponseText ("Error generating response: " ++ "network error") := rfl

/-- Claim C7 (amended): only `process_prompt` propagates a failed
model call to the caller as a typed failure (an HTTP 500 whose detail
names the error); `generate_response` instead catches the failure and
returns the structured fallback reply text. -/
theorem collaborator_failure_propagation (e : String) :
    process_prompt (Except.error e) =
        Except.error { status_code := 500, detail := "Error processing prompt: " ++ e } ∧
      generate_response (Except.error e) =
        fallbackResponseText ("Error generating response: " ++ e) :=
  ⟨rfl, rfl⟩

/-! ## Claim C10 -/

/-- Claim C10: when no clause analysis is at `high_risk` or
`critical_risk` and the summary reports no missing clauses,
`_generate_recommendations` returns exactly the one generic sentence,
verbatim. -/
theorem generic_recommendation_round_trip (analyses : List ClauseAnalysis)
    (summary : ContractSummary)
    (hrisk : ∀ a ∈ analyses, a.clause.risk_level ≠ RiskLevel.high_risk ∧
      a.clause.risk_level ≠ RiskLevel.critical_risk)
    (hmissing : summary.missing_clauses = []) :
    generateRecommendations analyses summary =
      ["This contract appears to have reasonable terms, but a thorough review by qualified legal counsel is always recommended."] := by
  have hclause : (analyses.filterMap (fun a =>
      if a.clause.risk_level = RiskLevel.high_risk ∨
          a.clause.risk_level = RiskLevel.critical_risk then
        if hasAlternativeWording a then
          some ("Revise the " ++ a.clause.title ++ " clause with more favorable language.")
        else
          some ("Review and potentially renegotiate the " ++ a.clause.title ++ " clause.")
      else none)) = [] := by
    rw [List.filterMap_eq_nil_iff]
    intro a ha
    obtain ⟨h₁, h₂⟩ := hrisk a ha
    simp [h₁, h₂]
  simp only [generateRecommendations, hclause, hmissing, List.map_nil,
    List.nil_append, genericRecommendation]
  rfl

/-- Concrete instantiation of `generic_recommendation_round_trip` on a
single low-risk clause and an empty missing-clause list. -/
theorem generic_recommendation_round_trip_witness :
    generateRecommendations
        [{ clause := { title := "Notices", text := "notices text"
                       category := ClauseCategory.other
                       risk_level := RiskLevel.low_risk
                       risk_explanation := "routine", position := none }
           alternative_wording := none, legal_concerns := [] }]
        { title := "MSA", contract_type := "General Contract"
          parties := ["A", "B"], key_points := [], missing_clauses := [] } =
      ["This contract appears to have reasonable terms, but a thorough review by qualified legal counsel is always recommended."] :=
  generic_recommendation_round_trip _ _ (by decide) rfl

/-! ## Claim C5 -/

/-- A digit character has numeric value at most 9. -/
theorem isDigitCh_toNat_bound {c : Char} (h : isDigitCh c = true) :
    c.toNat - 48 ≤ 9 := by
  simp only [isDigitCh, Bool.and_eq_true, decide_eq_true_eq] at h
  obtain ⟨h1, h2⟩ := h
  have hv : c.val ≤ Char.val (Char.ofNat 57) := h2
  rw [UInt32.le_def, BitVec.le_def] at hv
  have : c.toNat ≤ 57 := by
    simpa [Char.toNat, UInt32.toNat] using hv
  omega

/-- The converted value of a captured digit pair lies in `[0, 9.9]`. -/
theorem digitPairValue_range {p : Char × Char} (h1 : isDigitCh p.1 = true)
    (h2 : isDigitCh p.2 = true) :
    0 ≤ digitPairValue p ∧ digitPairValue p ≤ 99/10 := by
  have b1 := isDigitCh_toNat_bound h1
  have b2 := isDigitCh_toNat_bound h2
  constructor
  · unfold digitPairValue
    positivity
  · unfold digitPairValue
    have hn : ((p.1.toNat - 48) * 10 + (p.2.toNat - 48) : ℕ) ≤ 99 := by omega
    have hq : (((p.1.toNat - 48) * 10 + (p.2.toNat - 48) : ℕ) : ℚ) ≤ 99 := by
      exact_mod_cast hn
    calc (((p.1.toNat - 48) * 10 + (p.2.toNat - 48) : ℕ) : ℚ) / 10 ≤ 99 / 10 := by
          gcongr
      _ = 99/10 := rfl

/-- A successful `simTail` capture consists of digit characters. -/
theorem simTail_digits {l : List Char} {p : Char × Char}
    (h : simTail l = some p) :
    isDigitCh p.1 = true ∧ isDigitCh p.2 = true := by
  unfold simTail at h
  split at h
  · next d1 d2 rest =>
    split at h
    · next hd =>
      cases h
      simpa using hd
    · exact absurd h (by simp)
  · exact absurd h (by simp)

/-- A successful `scanSimilarity` capture consists of digit
characters. -/
theorem scanSimilarity_digits {l : List Char} {p : Char × Char}
    (h : scanSimilarity l = some p) :
    isDigitCh p.1 = true ∧ isDigitCh p.2 = true := by
  induction l with
  | nil => simp [scanSimilarity] at h
  | cons c rest ih =>
    unfold scanSimilarity at h
    split at h
    · split at h
      · next hsim =>
        cases h
        exact simTail_digits hsim
      · exact ih h
    · exact ih h

/-- The extracted similarity score is the default `0.5` or a captured
`d.d` value; either way it lies in `[0, 9.9]`. -/
theorem extractSimilarityScore_range (s : String) :
    0 ≤ extractSimilarityScore s ∧ extractSimilarityScore s ≤ 99/10 := by
  unfold extractSimilarityScore
  cases hscan : scanSimilarity (lowerData s) with
  | none => norm_num
  | some p =>
    obtain ⟨h1, h2⟩ := scanSimilarity_digits hscan
    exact digitPairValue_range h1 h2

/-- The template store, clause, and expected matches used by the C5
concrete theorems. -/
def sampleTemplateStore : List (String × StandardTemplate) :=
  [("t1", { id := "t1", name := "Standard Services Agreement"
            clauses := [(ClauseCategory.other, "standard clause text")] })]

/-- A clause of category `other`, comparable against
`sampleTemplateStore`. -/
def sampleOtherClause : ContractClause :=
  { title := "Misc", text := "misc clause text"
    category := ClauseCategory.other
    risk_level := RiskLevel.low_risk, risk_explanation := "", position := none }

/-- The match produced for `sampleOtherClause` when the model reply
holds no similarity-score pattern. -/
def sampleDefaultMatch : TemplateMatch :=
  { template_id := "t1", template_name := "Standard Services Agreement"
    similarity_score := 1/2, differences := "Unknown differences" }

/-- Claim C5, as stated, is false: `_compare_to_templates` performs no
clamping, so the model reply "similarity score: 9.9" produces a
`TemplateMatch` whose similarity score is `9.9`, outside `[0, 1]`. -/
theorem similarity_clamp_counterexample :
    ((compareToTemplates sampleTemplateStore (fun _ => "similarity score: 9.9")
        sampleOtherClause ["t1"]).map TemplateMatch.similarity_score = [99/10]) ∧
      ¬ ((99 : ℚ)/10 ≤ 1) := by
  constructor
  · have hscan : scanSimilarity (lowerData "similarity score: 9.9") =
        some ('9', '9') := by decide
    have hnat : (('9'.toNat - 48) * 10 + ('9'.toNat - 48) : ℕ) = 99 := by decide
    have hval : digitPairValue ('9', '9') = 99/10 := by
      unfold digitPairValue
      rw [hnat]
      norm_num
    simp [compareToTemplates, sampleTemplateStore, sampleOtherClause, List.lookup,
      extractSimilarityScore, hscan, hval]
  · norm_num

/-- Claim C5 (amended): the similarity score of every returned
`TemplateMatch` is the `d.d` value captured after the first
case-insensitive occurrence of "similarity score" (followed by
optional colons and whitespace), or the default `0.5` when no such
pattern occurs; it is not clamped, and therefore lies in `[0, 9.9]`
rather than `[0, 1]`. -/
theorem template_match_similarity_range (store : List (String × StandardTemplate))
    (replyFor : String → String) (clause : ContractClause)
    (templateIds : List String) (m : TemplateMatch)
    (hm : m ∈ compareToTemplates store replyFor clause templateIds) :
    0 ≤ m.similarity_score ∧ m.similarity_score ≤ 99/10 := by
  unfold compareToTemplates at hm
  rw [List.mem_filterMap] at hm
  obtain ⟨tid, -, hf⟩ := hm
  cases hstore : store.lookup tid with
  | none => rw [hstore] at hf; exact absurd hf (by simp)
  | some tmpl =>
    rw [hstore] at hf
    dsimp only at hf
    cases hcl : tmpl.clauses.lookup clause.category with
    | none => rw [hcl] at hf; exact absurd hf (by simp)
    | some tclause =>
      rw [hcl] at hf
      simp only [Option.some_inj] at hf
      have : m.similarity_score = extractSimilarityScore (replyFor tid) := by
        rw [← hf]
      rw [this]
      exact extractSimilarityScore_range (replyFor tid)

/-- Concrete instantiation of `template_match_similarity_range` on a
reply with no similarity-score pattern: the default match is returned
and its score is in range. -/
theorem template_match_similarity_range_witness :
    sampleDefaultMatch ∈ compareToTemplates sampleTemplateStore
        (fun _ => "no score in this reply") sampleOtherClause ["t1"] ∧
      0 ≤ sampleDefaultMatch.similarity_score ∧
      sampleDefaultMatch.similarity_score ≤ 99/10 := by
  have hscan : scanSimilarity (lowerData "no score in this reply") = none := by
    decide
  have hdiff : extractDifferencesText "no score in this reply" =
      "Unknown differences" := by decide
  have hm : sampleDefaultMatch ∈ compareToTemplates sampleTemplateStore
      (fun _ => "no score in this reply") sampleOtherClause ["t1"] := by
    simp [compareToTemplates, sampleTemplateStore, sampleOtherClause, List.lookup,
      extractSimilarityScore, hscan, hdiff, sampleDefaultMatch]
  exact ⟨hm, template_match_similarity_range _ _ _ _ _ hm⟩

/-! ## Claim C9 -/

/-- Claim C9: whenever no alternative-outcome entries can be extracted
from the model reply (no "Alternative outcomes" section, or no block
yielding a usable scenario), `_extract_alternative_outcomes` returns
exactly the one synthesized default entry: scenario "Alternative
resolution through settlement", probability 30, impact "Moderate
impact". -/
theorem alternative_outcomes_default (text : String)
    (h : extractedOutcomes text = []) :
    extractAlternativeOutcomes text =
      [{ scenario := "Alternative resolution through settlement"
         probability := 30
         impact := "Moderate impact" }] := by
  simp [extractAlternativeOutcomes, h, defaultAlternativeOutcome]

/-- Concrete instantiation of `alternative_outcomes_default` on a
reply with no "Alternative outcomes" section. -/
theorem alternative_outcomes_default_witness :
    extractedOutcomes "No outcome sections." = [] ∧
      extractAlternativeOutcomes "No outcome sections." =
        [{ scenario := "Alternative resolution through settlement"
           probability := 30
           impact := "Moderate impact" }] := by
  have hsec : altOutcomesSection "No outcome sections." = "" := by decide
  have hsplit : splitOutcomeBlocks (String.data "") = [[]] := by
    rw [splitOutcomeBlocks]
  have hempty : extractedOutcomes "No outcome sections." = [] := by
    simp only [extractedOutcomes, hsec, hsplit]
    decide
  exact ⟨hempty, alternative_outcomes_default _ hempty⟩

/-! ## Claim C8 -/

/-- A filter keeping exactly one element of a duplicate-free list is
that singleton. -/
theorem filter_eq_singleton_of {α : Type} [DecidableEq α] {L : List α}
    {p : α → Bool} {a : α} (hnd : L.Nodup) (ha : a ∈ L) (hp : p a = true)
    (huniq : ∀ b ∈ L, p b = true → b = a) : L.filter p = [a] := by
  induction L with
  | nil => simp at ha
  | cons x xs ih =>
    obtain ⟨hx_not_mem, hnd'⟩ := List.nodup_cons.mp hnd
    rcases List.mem_cons.mp ha with hax | hax
    · subst hax
      have hxs : xs.filter p = [] := by
        rw [List.filter_eq_nil_iff]
        intro b hb hpb
        have hba := huniq b (List.mem_cons_of_mem _ hb) hpb
        exact hx_not_mem (hba ▸ hb)
      simp [List.filter_cons, hp, hxs]
    · have hpx : p x = false := by
        by_contra hcon
        have : p x = true := by
          cases hval : p x
          · exact absurd hval hcon
          · rfl
        have := huniq x (List.mem_cons_self x xs) this
        exact hx_not_mem (this ▸ hax)
      have := ih hnd' hax (fun b hb hpb => huniq b (List.mem_cons_of_mem _ hb) hpb)
      simp [List.filter_cons, hpx, this]

/-- `filterMap` and `filter` agree in length when the mapping is
defined exactly on the kept elements. -/
theorem length_filterMap_eq_filter {α β : Type} (f : α → Option β)
    (p : α → Bool) (L : List α) (h : ∀ a ∈ L, (f a).isSome = p a) :
    (L.filterMap f).length = (L.filter p).length := by
  induction L with
  | nil => rfl
  | cons x xs ih =>
    have hx := h x (List.mem_cons_self x xs)
    have ih' := ih (fun a ha => h a (List.mem_cons_of_mem _ ha))
    cases hfx : f x with
    | none =>
      rw [hfx] at hx
      simp only [Option.isSome_none] at hx
      simp [List.filterMap_cons, List.filter_cons, hfx, ← hx, ih']
    | some b =>
      rw [hfx] at hx
      simp only [Option.isSome_some] at hx
      simp [List.filterMap_cons, List.filter_cons, hfx, ← hx, ih']

/-- Claim C8: for two contracts whose extracted clauses group
(last-write-wins per category) to identical category sets, with
exactly one shared category whose grouped clause texts differ verbatim
and no focus filter, `compare_contracts` returns `common_clauses`
containing that category, a `differences` list of length exactly 1,
and empty `unique_to_a` and `unique_to_b`. -/
theorem comparator_near_identical (replyFor : ClauseCategory → String)
    (clauses_a clauses_b : List ContractClause)
    (name_a name_b : Option String) (c₀ : ClauseCategory)
    (hsets : ∀ c, (groupClausesByCategory clauses_a c).isSome =
      (groupClausesByCategory clauses_b c).isSome)
    (hdiff : groupedTextsDiffer clauses_a clauses_b c₀ = true)
    (huniq : ∀ c, groupedTextsDiffer clauses_a clauses_b c = true → c = c₀) :
    c₀ ∈ (compareContracts replyFor clauses_a clauses_b none name_a name_b).common_clauses ∧
      (compareContracts replyFor clauses_a clauses_b none name_a name_b).differences.length = 1 ∧
      (compareContracts replyFor clauses_a clauses_b none name_a name_b).unique_to_a = [] ∧
      (compareContracts replyFor clauses_a clauses_b none name_a name_b).unique_to_b = [] := by
  have mem_all : ∀ c : ClauseCategory, c ∈ allCategories := by decide
  have hnodup : allCategories.Nodup := by decide
  have hq : ((groupClausesByCategory clauses_a c₀).isSome &&
      (groupClausesByCategory clauses_b c₀).isSome) = true := by
    unfold groupedTextsDiffer at hdiff
    cases hga : groupClausesByCategory clauses_a c₀ with
    | none => rw [hga] at hdiff; simp at hdiff
    | some ca =>
      cases hgb : groupClausesByCategory clauses_b c₀ with
      | none => rw [hga, hgb] at hdiff; simp at hdiff
      | some cb => simp [hga, hgb]
  have hc₀mem : c₀ ∈ allCategories.filter (fun c =>
      (groupClausesByCategory clauses_a c).isSome &&
      (groupClausesByCategory clauses_b c).isSome) :=
    List.mem_filter.mpr ⟨mem_all c₀, hq⟩
  have hfp : ∀ cat ∈ allCategories.filter (fun c =>
      (groupClausesByCategory clauses_a c).isSome &&
      (groupClausesByCategory clauses_b c).isSome),
      (if focusSkips none cat then none else
        match groupClausesByCategory clauses_a cat,
            groupClausesByCategory clauses_b cat with
        | some ca, some cb =>
          if ca.text ≠ cb.text then
            some (analyzeDifference (replyFor cat) ca cb)
          else none
        | _, _ => none).isSome = groupedTextsDiffer clauses_a clauses_b cat := by
    intro cat _
    rw [show focusSkips none cat = false from rfl]
    unfold groupedTextsDiffer
    cases hga : groupClausesByCategory clauses_a cat with
    | none => simp
    | some ca =>
      cases hgb : groupClausesByCategory clauses_b cat with
      | none => simp
      | some cb =>
        by_cases ht : ca.text = cb.text
        · simp [ht]
        · simp [ht]
  refine ⟨?_, ?_, ?_, ?_⟩
  · simpa only [compareContracts] using hc₀mem
  · simp only [compareContracts]
    rw [length_filterMap_eq_filter _ (groupedTextsDiffer clauses_a clauses_b) _ hfp]
    rw [filter_eq_singleton_of ((List.Nodup.filter _) hnodup) hc₀mem hdiff
      (fun b _ hb => huniq b hb)]
    rfl
  · simp only [compareContracts]
    rw [List.filter_eq_nil_iff]
    intro c _
    have h := hsets c
    cases hga : groupClausesByCategory clauses_a c with
    | none => simp [hga]
    | some ca =>
      cases hgb : groupClausesByCategory clauses_b c with
      | none => rw [hga, hgb] at h; simp at h
      | some cb => simp [hga, hgb]
  · simp only [compareContracts]
    rw [List.filter_eq_nil_iff]
    intro c _
    have h := hsets c
    cases hga : groupClausesByCategory clauses_a c with
    | none =>
      cases hgb : groupClausesByCategory clauses_b c with
      | none => simp [hgb]
      | some cb => rw [hga, hgb] at h; simp at h
    | some ca => simp [hga]

/-- First contract of the concrete comparison scenario: a general
clause and a liability clause. -/
def sampleComparisonA : List ContractClause :=
  [{ title := "General", text := "general terms version one"
     category := ClauseCategory.other
     risk_level := RiskLevel.low_risk, risk_explanation := "", position := none },
   { title := "Liability", text := "shared liability text"
     category := ClauseCategory.liability
     risk_level := RiskLevel.medium_risk, risk_explanation := "", position := none }]

/-- Second contract of the concrete comparison scenario: same
categories, different text only in the `other` category. -/
def sampleComparisonB : List ContractClause :=
  [{ title := "General", text := "general terms version two"
     category := ClauseCategory.other
     risk_level := RiskLevel.low_risk, risk_explanation := "", position := none },
   { title := "Liability", text := "shared liability text"
     category := ClauseCategory.liability
     risk_level := RiskLevel.medium_risk, risk_explanation := "", position := none }]

/-- Concrete instantiation of `comparator_near_identical` on two
contracts differing only in the `other` category text. -/
theorem comparator_near_identical_witness :
    ClauseCategory.other ∈ (compareContracts (fun _ => "model reply")
        sampleComparisonA sampleComparisonB none none none).common_clauses ∧
      (compareContracts (fun _ => "model reply")
        sampleComparisonA sampleComparisonB none none none).differences.length = 1 ∧
      (compareContracts (fun _ => "model reply")
        sampleComparisonA sampleComparisonB none none none).unique_to_a = [] ∧
      (compareContracts (fun _ => "model reply")
        sampleComparisonA sampleComparisonB none none none).unique_to_b = [] :=
  comparator_near_identical (fun _ => "model reply") sampleComparisonA
    sampleComparisonB none none ClauseCategory.other
    (by decide) (by decide) (by decide)

end MCPLawyer
